import Mathlib

/-!
# Control de Abonos — verification of the ledger store and reconciliation engine

Shallow embedding of the data-access layer of `control_abonos_app.py`:
the `casos` (Case) and `abonos` (Payment) tables, the CRUD operations
(`add_caso`, `edit_caso`, `delete_caso`, `add_abono`), the query helpers
(`fetch_casos`, `fetch_abonos`), the reconciliation report
(`resumen_por_caso`) and the per-tenant path helpers (`sanitize_username`,
`get_db_path_for_user`).

Modelling conventions:
* SQLite REAL amounts are modelled as exact rationals (`Rat`); non-finite
  float literals are outside the modelled numeric domain.
* The dynamically-typed Python arguments that the code runs through
  `int(...)` / `float(...)` are modelled by `PyVal`; `int(None)` /
  `float(None)` raising is modelled by returning `Option.none`.
* The `casos` list of a `Store` is kept in the order the table scan returns
  rows; `ORDER BY` clauses are modelled with `List.insertionSort`.
* Dates are carried as ISO strings end to end.  `pd.to_datetime` is an
  external library: it is passed in as an arbitrary parse function
  `parseDate : PyVal → Option String`, and `datetime.utcnow().date()` is
  passed in as an explicit `today : String` argument.
* A Python `raise ValueError(msg)` is modelled as `Except.error msg`; each
  operation returns the post-state together with its result, and the
  post-state equals the input state on every error path (the code raises
  before issuing the INSERT).
-/

set_option linter.unusedVariables false

namespace ControlAbonos

/-- Dynamically-typed Python values reaching the store operations. -/
inductive PyVal where
  | int (n : Int)
  | float (q : Rat)
  | str (s : String)
  | none
deriving DecidableEq

/-- Numeric value of a list of decimal digits, most significant first. -/
def digitsVal (cs : List Char) : Nat :=
  cs.foldl (fun a c => a * 10 + (c.toNat - 48)) 0

/-- Drop leading and trailing whitespace, as Python `str.strip()` does. -/
def stripChars (l : List Char) : List Char :=
  ((l.dropWhile Char.isWhitespace).reverse.dropWhile Char.isWhitespace).reverse

/-- `str.strip()` on strings. -/
def pyStrip (s : String) : String :=
  String.mk (stripChars s.data)

/-- An optional sign followed by one or more decimal digits. -/
def parseSignedDigits (cs : List Char) : Option Int :=
  match cs with
  | '-' :: rest =>
      if rest ≠ [] ∧ rest.all Char.isDigit then some (-(digitsVal rest : Int)) else Option.none
  | '+' :: rest =>
      if rest ≠ [] ∧ rest.all Char.isDigit then some ((digitsVal rest : Int)) else Option.none
  | rest =>
      if rest ≠ [] ∧ rest.all Char.isDigit then some ((digitsVal rest : Int)) else Option.none

/-- Model of Python `int(s)` on a string: optional surrounding whitespace,
an optional sign, then decimal digits only. -/
def parseIntString (s : String) : Option Int :=
  parseSignedDigits (stripChars s.data)

/-- The rational denoted by an integer part and a fractional part. -/
def ratOfParts (ip fp : List Char) : Rat :=
  (digitsVal ip : Rat) + (digitsVal fp : Rat) / ((10 : Rat) ^ fp.length)

/-- An unsigned decimal literal: digits, optionally followed by a dot and
further digits, with at least one digit overall. -/
def parseUnsignedRat (cs : List Char) : Option Rat :=
  let ip := cs.takeWhile Char.isDigit
  let rest := cs.drop ip.length
  match rest with
  | [] => if ip ≠ [] then some ((digitsVal ip : Rat)) else Option.none
  | '.' :: fp =>
      if fp.all Char.isDigit ∧ (ip ≠ [] ∨ fp ≠ []) then some (ratOfParts ip fp)
      else Option.none
  | _ => Option.none

/-- Model of Python `float(s)` on a string (finite decimal literals). -/
def parseRatString (s : String) : Option Rat :=
  match stripChars s.data with
  | '-' :: rest => (parseUnsignedRat rest).map (fun q => -q)
  | '+' :: rest => parseUnsignedRat rest
  | rest => parseUnsignedRat rest

/-- Model of Python `int(x)` as used in `add_abono`: ints pass through,
floats truncate toward zero, strings must spell an integer; `None` raises,
modelled as `Option.none`. -/
def pyToInt (v : PyVal) : Option Int :=
  match v with
  | PyVal.int n => some n
  | PyVal.float q => some (q.num.tdiv (q.den : Int))
  | PyVal.str s => parseIntString s
  | PyVal.none => Option.none

/-- Model of Python `float(x)` as used in `add_abono`. -/
def pyToFloat (v : PyVal) : Option Rat :=
  match v with
  | PyVal.int n => some ((n : Rat))
  | PyVal.float q => some q
  | PyVal.str s => parseRatString s
  | PyVal.none => Option.none

/-- A row of the `casos` table. -/
@[ext] structure Caso where
  id : Nat
  cliente : String
  descripcion : String
  valor_acordado : Rat
  etapa : String
  observaciones : String
  creado_en : String
  creado_por : Option String
deriving DecidableEq

/-- A row of the `abonos` table. -/
@[ext] structure Abono where
  id : Nat
  fecha : String
  monto : Rat
  caso_id : Nat
  observaciones : String
  creado_en : String
  creado_por : Option String
deriving DecidableEq

/-- One tenant's database: the two tables plus the AUTOINCREMENT counters.
Rows are listed in table-scan (insertion) order. -/
@[ext] structure Store where
  casos : List Caso
  abonos : List Abono
  nextCasoId : Nat
  nextAbonoId : Nat
deriving DecidableEq

/-- The WHERE clause built by `fetch_casos`: each filter restricts to an
exact match only when it is truthy (not `None`, not `""`) and not the
literal `"Todos"`. -/
def casoMatches (cliente_filter etapa_filter : Option String) (c : Caso) : Bool :=
  (match cliente_filter with
   | some s => if s ≠ "" ∧ s ≠ "Todos" then c.cliente == s else true
   | Option.none => true) &&
  (match etapa_filter with
   | some s => if s ≠ "" ∧ s ≠ "Todos" then c.etapa == s else true
   | Option.none => true)

/-- `ORDER BY id` on `casos`. -/
def casoIdLe (c d : Caso) : Prop := c.id ≤ d.id

instance : DecidableRel casoIdLe := fun c d => Nat.decLe c.id d.id

/-- `fetch_casos`: SELECT * FROM casos with the optional exact-match
filters, ORDER BY id. -/
def fetch_casos (st : Store) (cliente_filter etapa_filter : Option String) : List Caso :=
  List.insertionSort casoIdLe (st.casos.filter (casoMatches cliente_filter etapa_filter))

/-- A row of `fetch_abonos`: an `abonos` row joined with its Case's
`cliente` and `descripcion`. -/
@[ext] structure AbonoRow where
  id : Nat
  fecha : String
  monto : Rat
  caso_id : Nat
  observaciones : String
  creado_en : String
  creado_por : Option String
  cliente : String
  descripcion : String
deriving DecidableEq

/-- The inner join `abonos JOIN casos ON abonos.caso_id = casos.id`. -/
def joinAbonosCasos (st : Store) : List AbonoRow :=
  st.abonos.flatMap (fun a =>
    (st.casos.filter (fun c => c.id == a.caso_id)).map (fun c =>
      { id := a.id
        fecha := a.fecha
        monto := a.monto
        caso_id := a.caso_id
        observaciones := a.observaciones
        creado_en := a.creado_en
        creado_por := a.creado_por
        cliente := c.cliente
        descripcion := c.descripcion }))

/-- `ORDER BY fecha DESC, id DESC` on the joined rows. -/
def abonoOrd (x y : AbonoRow) : Prop :=
  y.fecha < x.fecha ∨ (y.fecha = x.fecha ∧ y.id ≤ x.id)

instance : DecidableRel abonoOrd := fun x y =>
  (inferInstance : Decidable (y.fecha < x.fecha ∨ (y.fecha = x.fecha ∧ y.id ≤ x.id)))

/-- `fetch_abonos`: the join, optionally restricted to one case — the
Python guard `if caso_id:` applies the WHERE clause only when `caso_id` is
truthy (not `None` and not `0`) — then ORDER BY fecha DESC, id DESC.
The display-only normalisation of the `fecha` column (parsing the stored
ISO string back into a date) is the identity on the date content and keeps
the rows as ISO strings. -/
def fetch_abonos (st : Store) (caso_id : Option Nat) : List AbonoRow :=
  let joined := joinAbonosCasos st
  let filtered :=
    match caso_id with
    | some n => if n ≠ 0 then joined.filter (fun r => r.caso_id == n) else joined
    | Option.none => joined
  List.insertionSort abonoOrd filtered

/-- `add_caso`: rejects an empty/whitespace-only client and an existing
(cliente, descripcion) pair (the duplicate check compares the *unstripped*
client), then inserts with the client stripped.  Python's
`float(valor_acordado or 0)` on the numeric-or-`None` domain is
`Option.getD 0`; `today` stands for `datetime.utcnow().date().isoformat()`. -/
def add_caso (st : Store) (cliente descripcion : String) (valor_acordado : Option Rat)
    (etapa observaciones : String) (today : String) (creado_por : Option String) :
    Store × Except String Nat :=
  if cliente == "" || pyStrip cliente == "" then
    (st, Except.error "El nombre del cliente es obligatorio.")
  else if st.casos.any (fun c => c.cliente == cliente && c.descripcion == descripcion) then
    (st, Except.error "Ya existe un caso con ese cliente y descripción.")
  else
    let nuevo : Caso :=
      { id := st.nextCasoId
        cliente := pyStrip cliente
        descripcion := descripcion
        valor_acordado := valor_acordado.getD 0
        etapa := etapa
        observaciones := observaciones
        creado_en := today
        creado_por := creado_por }
    ({ st with casos := st.casos ++ [nuevo], nextCasoId := st.nextCasoId + 1 },
     Except.ok st.nextCasoId)

/-- `edit_caso`: an unconditional UPDATE of every field except `id` and
`creado_en`/`creado_por`; returns the cursor's rowcount.  It performs no
validation at all (no client check, no uniqueness re-check). -/
def edit_caso (st : Store) (caso_id : Nat) (cliente descripcion : String)
    (valor_acordado : Option Rat) (etapa observaciones : String) : Store × Nat :=
  ({ st with
      casos := st.casos.map (fun c =>
        if c.id == caso_id then
          { c with cliente := cliente
                   descripcion := descripcion
                   valor_acordado := valor_acordado.getD 0
                   etapa := etapa
                   observaciones := observaciones }
        else c) },
   st.casos.countP (fun c => c.id == caso_id))

/-- `delete_caso`: DELETE FROM abonos WHERE caso_id = ?, then DELETE FROM
casos WHERE id = ?.  Never raises. -/
def delete_caso (st : Store) (caso_id : Nat) : Store :=
  { st with
      abonos := st.abonos.filter (fun a => !(a.caso_id == caso_id)),
      casos := st.casos.filter (fun c => !(c.id == caso_id)) }

/-- The `fecha` argument of `add_abono`: either a Python `date` value
(the `isinstance(fecha, date)` branch) or any other value, which is run
through the external parser `pd.to_datetime`. -/
inductive DateInput where
  | isDate (iso : String)
  | other (v : PyVal)

/-- `add_abono`: validates the case id (`int(...)` then an existence
check), the amount (`float(...)` then positivity), resolves the date
(falling back to `today` when the external parser fails), then inserts.
All `raise` statements happen before the INSERT, so every error path
returns the store unchanged. -/
def add_abono (parseDate : PyVal → Option String) (st : Store)
    (fecha : DateInput) (monto : PyVal) (caso_id : PyVal)
    (observaciones : String) (today : String) (creado_por : Option String) :
    Store × Except String Nat :=
  match pyToInt caso_id with
  | Option.none => (st, Except.error "ID de caso inválido.")
  | some n =>
    if st.casos.any (fun c => ((c.id : Int)) == n) then
      match pyToFloat monto with
      | Option.none => (st, Except.error "Monto inválido.")
      | some m =>
        if m ≤ 0 then (st, Except.error "El monto debe ser mayor que cero.")
        else
          let fecha_iso :=
            match fecha with
            | DateInput.isDate iso => iso
            | DateInput.other v => (parseDate v).getD today
          let nuevo : Abono :=
            { id := st.nextAbonoId
              fecha := fecha_iso
              monto := m
              caso_id := n.toNat
              observaciones := observaciones
              creado_en := today
              creado_por := creado_por }
          ({ st with abonos := st.abonos ++ [nuevo], nextAbonoId := st.nextAbonoId + 1 },
           Except.ok st.nextAbonoId)
    else (st, Except.error ("No existe el caso con id " ++ toString n ++ "."))

/-- A row of the `resumen_por_caso` report. -/
@[ext] structure ResumenRow where
  id : Nat
  cliente : String
  descripcion : String
  valor_acordado : Rat
  total_abonado : Rat
  saldo_pendiente : Rat
  etapa : String
  observaciones : String
deriving DecidableEq

/-- `SELECT caso_id, SUM(monto) FROM abonos GROUP BY caso_id`: one
(key, sum) pair per distinct `caso_id` occurring in `abonos`. -/
def total_by_caso (abonos : List Abono) : List (Nat × Rat) :=
  ((abonos.map Abono.caso_id).dedup).map
    (fun cid => (cid, ((abonos.filter (fun a => a.caso_id == cid)).map Abono.monto).sum))

/-- `resumen_por_caso`: the filtered cases, each left-merged with its
grouped payment total (missing group → 0.0) and extended with
`saldo_pendiente = valor_acordado - total_abonado`; an empty frame when no
case matches. -/
def resumen_por_caso (st : Store) (cliente_filter etapa_filter : Option String) :
    List ResumenRow :=
  let casos := fetch_casos st cliente_filter etapa_filter
  if casos.isEmpty then []
  else
    let grouped := total_by_caso st.abonos
    casos.map (fun c =>
      let tot := (grouped.lookup c.id).getD 0
      { id := c.id
        cliente := c.cliente
        descripcion := c.descripcion
        valor_acordado := c.valor_acordado
        total_abonado := tot
        saldo_pendiente := c.valor_acordado - tot
        etapa := c.etapa
        observaciones := c.observaciones })

/-- Characters the username sanitiser keeps: the regex class `[A-Za-z0-9_-]`. -/
def allowedChar (c : Char) : Bool :=
  ((('A' ≤ c) ∧ (c ≤ 'Z')) ∨ (('a' ≤ c) ∧ (c ≤ 'z')) ∨
   (('0' ≤ c) ∧ (c ≤ '9')) ∨ c = '_' ∨ c = '-' : Bool)

/-- `sanitize_username`: empty input yields `"anonymous"`, otherwise every
character outside `[A-Za-z0-9_-]` is replaced by `"_"`. -/
def sanitize_username (username : String) : String :=
  if username = "" then "anonymous"
  else String.mk (username.data.map (fun c => if allowedChar c then c else '_'))

/-- `get_db_path_for_user`: instantiates `control_abonos_{user}.db`. -/
def get_db_path_for_user (username : String) : String :=
  "control_abonos_" ++ sanitize_username username ++ ".db"

/-- Spec-side description of a case's paid total: the sum of the amounts of
all Payments whose `caso_id` equals the given id. -/
def sumPaymentsFor (abonos : List Abono) (cid : Nat) : Rat :=
  ((abonos.filter (fun a => a.caso_id == cid)).map Abono.monto).sum

/-- Spec-side description of one summary row for a Case. -/
def specRow (abonos : List Abono) (c : Caso) : ResumenRow :=
  { id := c.id
    cliente := c.cliente
    descripcion := c.descripcion
    valor_acordado := c.valor_acordado
    total_abonado := sumPaymentsFor abonos c.id
    saldo_pendiente := c.valor_acordado - sumPaymentsFor abonos c.id
    etapa := c.etapa
    observaciones := c.observaciones }

/-- Referential integrity of one tenant store, as the database enforces it
(`PRAGMA foreign_keys = ON`, `id INTEGER PRIMARY KEY`): case ids are
distinct and every payment references an existing case. -/
def Store.WF (st : Store) : Prop :=
  (st.casos.map Caso.id).Nodup ∧ ∀ a ∈ st.abonos, a.caso_id ∈ st.casos.map Caso.id

/-- A filter argument that `fetch_casos` treats as "no filter". -/
def neutralFilter (f : Option String) : Prop :=
  f = Option.none ∨ f = some "" ∨ f = some "Todos"

/-- The failure condition of `add_abono`, in the spec's words: the case id
does not resolve to an int, or no Case with that id exists, or the amount
is not numeric, or the amount is ≤ 0. -/
def addAbonoFails (st : Store) (caso_id monto : PyVal) : Prop :=
  pyToInt caso_id = Option.none ∨
  (∃ n, pyToInt caso_id = some n ∧ ∀ c ∈ st.casos, ((c.id : Int)) ≠ n) ∨
  pyToFloat monto = Option.none ∨
  (∃ m, pyToFloat monto = some m ∧ m ≤ 0)

/-! ## Helper lemmas -/

theorem lookup_map_key (l : List Nat) (f : Nat → Rat) (cid : Nat) :
    (l.map (fun k => (k, f k))).lookup cid =
      if cid ∈ l then some (f cid) else Option.none := by
  induction l with
  | nil => simp [List.lookup]
  | cons k t ih =>
    by_cases h : cid = k
    · subst h
      simp [List.lookup]
    · have hb : (cid == k) = false := by
        simpa using h
      simp [List.lookup, hb, ih, h]

theorem filter_caso_id_eq_nil (abonos : List Abono) (cid : Nat)
    (h : cid ∉ abonos.map Abono.caso_id) :
    abonos.filter (fun a => a.caso_id == cid) = [] := by
  rw [List.filter_eq_nil_iff]
  intro a ha hb
  exact h (List.mem_map.mpr ⟨a, ha, by simpa using hb⟩)

/-- The GROUP BY / left-merge / fillna(0) pipeline computes, for any case
id, exactly the direct sum of that case's payment amounts. -/
theorem lookup_total (abonos : List Abono) (cid : Nat) :
    ((total_by_caso abonos).lookup cid).getD 0 = sumPaymentsFor abonos cid := by
  unfold total_by_caso
  rw [lookup_map_key]
  by_cases h : cid ∈ (abonos.map Abono.caso_id).dedup
  · simp [h, sumPaymentsFor]
  · have h2 : cid ∉ abonos.map Abono.caso_id := by
      simpa [List.mem_dedup] using h
    simp [h, sumPaymentsFor, filter_caso_id_eq_nil abonos cid h2]

/-- `resumen_por_caso` produces exactly one spec row per fetched case. -/
theorem resumen_spec (st : Store) (cf ef : Option String) :
    resumen_por_caso st cf ef = (fetch_casos st cf ef).map (specRow st.abonos) := by
  unfold resumen_por_caso
  rcases h : fetch_casos st cf ef with _ | ⟨c, cs⟩
  · simp
  · simp only [List.isEmpty_cons, Bool.false_eq_true, if_false]
    apply List.map_congr_left
    intro x hx
    simp [specRow, lookup_total]

theorem sumPaymentsFor_cons (a : Abono) (abs : List Abono) (cid : Nat) :
    sumPaymentsFor (a :: abs) cid =
      (if a.caso_id = cid then a.monto else 0) + sumPaymentsFor abs cid := by
  unfold sumPaymentsFor
  by_cases h : a.caso_id = cid
  · simp [h]
  · simp [h]

theorem sum_ite_notMem (casos : List Caso) (k : Nat) (m : Rat)
    (h : k ∉ casos.map Caso.id) :
    (casos.map (fun c => if k = c.id then m else 0)).sum = 0 := by
  induction casos with
  | nil => simp
  | cons c cs ih =>
    simp only [List.map_cons, List.mem_cons, List.sum_cons] at h ⊢
    have h1 : k ≠ c.id := fun he => h (Or.inl he)
    have h2 : k ∉ cs.map Caso.id := fun he => h (Or.inr he)
    simp [h1, ih h2]

theorem sum_ite_mem (casos : List Caso) (k : Nat) (m : Rat)
    (hnd : (casos.map Caso.id).Nodup) (hm : k ∈ casos.map Caso.id) :
    (casos.map (fun c => if k = c.id then m else 0)).sum = m := by
  induction casos with
  | nil => simp at hm
  | cons c cs ih =>
    simp only [List.map_cons, List.nodup_cons] at hnd
    rcases hnd with ⟨hc, hnd'⟩
    simp only [List.map_cons, List.mem_cons] at hm
    rcases hm with he | hm'
    · subst he
      simp [sum_ite_notMem cs c.id m hc]
    · have h1 : k ≠ c.id := by
        intro he
        exact hc (he ▸ hm')
      simp [h1, ih hnd' hm']

theorem sum_map_add_pointwise (l : List Caso) (f g : Caso → Rat) :
    (l.map (fun x => f x + g x)).sum = (l.map f).sum + (l.map g).sum := by
  induction l with
  | nil => simp
  | cons a t ih =>
    simp only [List.map_cons, List.sum_cons, ih]
    ring

/-- Double-counting: summing the per-case payment totals over a list of
cases with distinct ids counts every payment referencing one of those
cases exactly once. -/
theorem sum_map_sumPaymentsFor (casos : List Caso) (abs : List Abono)
    (hnd : (casos.map Caso.id).Nodup)
    (href : ∀ a ∈ abs, a.caso_id ∈ casos.map Caso.id) :
    (casos.map (fun c => sumPaymentsFor abs c.id)).sum = (abs.map Abono.monto).sum := by
  induction abs with
  | nil =>
    simp [sumPaymentsFor]
  | cons a t ih =>
    have hstep : (casos.map (fun c => sumPaymentsFor (a :: t) c.id))
        = casos.map (fun c => (if a.caso_id = c.id then a.monto else 0) + sumPaymentsFor t c.id) := by
      apply List.map_congr_left
      intro c _
      exact sumPaymentsFor_cons a t c.id
    rw [hstep, sum_map_add_pointwise]
    have hmem : a.caso_id ∈ casos.map Caso.id := href a (List.mem_cons_self a t)
    rw [sum_ite_mem casos a.caso_id a.monto hnd hmem]
    have htail : ∀ b ∈ t, b.caso_id ∈ casos.map Caso.id := fun b hb =>
      href b (List.mem_cons_of_mem a hb)
    rw [ih htail]
    simp

theorem fetch_casos_no_filter_perm (st : Store) :
    List.Perm (fetch_casos st Option.none Option.none) st.casos := by
  unfold fetch_casos
  have hfil : st.casos.filter (casoMatches Option.none Option.none) = st.casos := by
    apply List.filter_eq_self.mpr
    intro a ha
    rfl
  rw [hfil]
  exact List.perm_insertionSort _ _

/-- Exhaustive description of `add_caso`: the empty-client rejection, the
duplicate-pair rejection (which leaves the store untouched), and the
successful insertion. -/
theorem add_caso_cases (st : Store) (cliente descripcion : String) (valor : Option Rat)
    (etapa obs today : String) (cp : Option String) :
    (pyStrip cliente = "" →
      add_caso st cliente descripcion valor etapa obs today cp
        = (st, Except.error "El nombre del cliente es obligatorio.")) ∧
    ((∃ c ∈ st.casos, c.cliente = cliente ∧ c.descripcion = descripcion) →
      (∃ e, (add_caso st cliente descripcion valor etapa obs today cp).2 = Except.error e) ∧
      (add_caso st cliente descripcion valor etapa obs today cp).1 = st) ∧
    (pyStrip cliente ≠ "" →
      (∀ c ∈ st.casos, ¬(c.cliente = cliente ∧ c.descripcion = descripcion)) →
      add_caso st cliente descripcion valor etapa obs today cp
        = (⟨st.casos ++ [⟨st.nextCasoId, pyStrip cliente, descripcion, valor.getD 0,
              etapa, obs, today, cp⟩], st.abonos, st.nextCasoId + 1, st.nextAbonoId⟩,
           Except.ok st.nextCasoId)) := by
  unfold add_caso
  by_cases h1 : (cliente == "" || pyStrip cliente == "") = true
  · rw [if_pos h1]
    refine ⟨fun _ => rfl, fun _ => ⟨⟨_, rfl⟩, rfl⟩, fun hne _ => ?_⟩
    exfalso
    simp only [Bool.or_eq_true, beq_iff_eq] at h1
    rcases h1 with h | h
    · subst h
      exact hne rfl
    · exact hne h
  · rw [if_neg h1]
    by_cases h2 : (st.casos.any fun c => c.cliente == cliente && c.descripcion == descripcion) = true
    · rw [if_pos h2]
      refine ⟨fun hs => ?_, fun _ => ⟨⟨_, rfl⟩, rfl⟩, fun _ hnone => ?_⟩
      · exfalso
        apply h1
        simp [hs]
      · exfalso
        rcases List.any_eq_true.mp h2 with ⟨c, hc, hcb⟩
        simp only [Bool.and_eq_true, beq_iff_eq] at hcb
        exact hnone c hc hcb
    · rw [if_neg h2]
      refine ⟨fun hs => ?_, fun hdup => ?_, fun _ _ => rfl⟩
      · exfalso
        apply h1
        simp [hs]
      · exfalso
        apply h2
        rcases hdup with ⟨c, hc, hcli, hdes⟩
        exact List.any_eq_true.mpr ⟨c, hc, by simp [hcli, hdes]⟩

/-! ## Claims -/

/-- C1: for every store state, `resumen_por_caso` returns one row per Case
matching the filters, where each row's `total_abonado` equals the sum of
the amounts of all Payments whose `caso_id` equals that Case's id (0 when
the Case has no Payments) and `saldo_pendiente` equals
`valor_acordado − total_abonado`; when no Case matches the filters it
returns an empty result set, not an error. -/
theorem C1_resumen_rows (st : Store) (cf ef : Option String) :
    resumen_por_caso st cf ef = (fetch_casos st cf ef).map (specRow st.abonos) ∧
    (fetch_casos st cf ef = [] → resumen_por_caso st cf ef = []) := by
  refine ⟨resumen_spec st cf ef, fun h => ?_⟩
  rw [resumen_spec, h]
  rfl

/-- Witness for C1 at a concrete empty store. -/
theorem C1_resumen_rows_witness :
    resumen_por_caso ⟨[], [], 1, 1⟩ Option.none Option.none = [] :=
  (C1_resumen_rows ⟨[], [], 1, 1⟩ Option.none Option.none).2 rfl

/-- C2: with no filters, the sum of `total_abonado` over the summary rows
equals the sum of `monto` over all Payments in the store (under the
referential integrity the database schema enforces). -/
theorem C2_total_additivity (st : Store)
    (hnd : (st.casos.map Caso.id).Nodup)
    (href : ∀ a ∈ st.abonos, a.caso_id ∈ st.casos.map Caso.id) :
    ((resumen_por_caso st Option.none Option.none).map ResumenRow.total_abonado).sum
      = (st.abonos.map Abono.monto).sum := by
  rw [resumen_spec, List.map_map]
  have h1 : (ResumenRow.total_abonado ∘ specRow st.abonos)
      = fun c => sumPaymentsFor st.abonos c.id := rfl
  rw [h1]
  have hperm := (fetch_casos_no_filter_perm st).map (fun c => sumPaymentsFor st.abonos c.id)
  rw [hperm.sum_eq]
  exact sum_map_sumPaymentsFor st.casos st.abonos hnd href

/-- Witness for C2 at a concrete one-case, one-payment store. -/
theorem C2_total_additivity_witness :
    ((resumen_por_caso
        ⟨[⟨1, "Ana", "Contract", 1000, "", "", "2024-01-01", Option.none⟩],
         [⟨1, "2024-01-02", 300, 1, "", "2024-01-02", Option.none⟩], 2, 2⟩
        Option.none Option.none).map ResumenRow.total_abonado).sum
      = (([⟨1, "2024-01-02", 300, 1, "", "2024-01-02", Option.none⟩] : List Abono).map
          Abono.monto).sum :=
  C2_total_additivity
    ⟨[⟨1, "Ana", "Contract", 1000, "", "", "2024-01-01", Option.none⟩],
     [⟨1, "2024-01-02", 300, 1, "", "2024-01-02", Option.none⟩], 2, 2⟩
    (by decide) (by decide)

/-- C9: for every input string, `sanitize_username` returns a non-empty
string made only of characters in `[A-Za-z0-9_-]`: an empty input yields
`"anonymous"` and every disallowed character is replaced by `"_"`;
consequently the mapping is not injective, so two distinct identities
differing only in disallowed characters are assigned the same per-tenant
database path by `get_db_path_for_user`. -/
theorem C9_sanitize (u : String) :
    sanitize_username u ≠ "" ∧
    (∀ c ∈ (sanitize_username u).data, allowedChar c = true) ∧
    sanitize_username "" = "anonymous" ∧
    (u ≠ "" → (sanitize_username u).data
        = u.data.map (fun c => if allowedChar c then c else '_')) ∧
    (("user.name" : String) ≠ "user,name" ∧
      get_db_path_for_user "user.name" = get_db_path_for_user "user,name") := by
  refine ⟨?_, ?_, by decide, ?_, by decide, by decide⟩
  · by_cases h : u = ""
    · subst h
      decide
    · unfold sanitize_username
      rw [if_neg h]
      intro habs
      apply h
      have hd : u.data.map (fun c => if allowedChar c then c else '_') = ([] : List Char) :=
        congrArg String.data habs
      have hnil : u.data = [] := by simpa using hd
      cases u
      simp_all
  · by_cases h : u = ""
    · subst h
      decide
    · intro c hc
      unfold sanitize_username at hc
      rw [if_neg h] at hc
      simp only [] at hc
      rcases List.mem_map.mp hc with ⟨c', hc', he⟩
      by_cases ha : allowedChar c'
      · rw [if_pos ha] at he
        rw [← he]
        exact ha
      · rw [if_neg ha] at he
        rw [← he]
        decide
  · intro h
    unfold sanitize_username
    rw [if_neg h]

/-- Witness for C9: the disallowed-character substitution evaluated at a
concrete non-empty username. -/
theorem C9_sanitize_witness :
    (sanitize_username "a.b").data
      = ("a.b" : String).data.map (fun c => if allowedChar c then c else '_') :=
  (C9_sanitize "a.b").2.2.2.1 (by decide)

theorem casoMatches_neutral_left (cf ef : Option String) (h : neutralFilter cf) (c : Caso) :
    casoMatches cf ef c = casoMatches Option.none ef c := by
  rcases h with h | h | h <;> subst h <;> simp [casoMatches]

theorem casoMatches_neutral_right (cf ef : Option String) (h : neutralFilter ef) (c : Caso) :
    casoMatches cf ef c = casoMatches cf Option.none c := by
  rcases h with h | h | h <;> subst h <;> simp [casoMatches]

/-- C10: `fetch_casos` and `resumen_por_caso` treat a client or stage
filter that is `None`, empty, or the literal string `"Todos"` as "no
filter": all Cases are returned; in particular a client literally named
`"Todos"` can never be selected by exact-match filtering. -/
theorem C10_todos_filter (st : Store) (cf ef : Option String) :
    (neutralFilter cf →
      fetch_casos st cf ef = fetch_casos st Option.none ef ∧
      resumen_por_caso st cf ef = resumen_por_caso st Option.none ef) ∧
    (neutralFilter ef →
      fetch_casos st cf ef = fetch_casos st cf Option.none ∧
      resumen_por_caso st cf ef = resumen_por_caso st cf Option.none) ∧
    (neutralFilter cf → neutralFilter ef →
      List.Perm (fetch_casos st cf ef) st.casos) := by
  refine ⟨fun h => ?_, fun h => ?_, fun h1 h2 => ?_⟩
  · have hf : fetch_casos st cf ef = fetch_casos st Option.none ef := by
      unfold fetch_casos
      rw [List.filter_congr (fun c _ => casoMatches_neutral_left cf ef h c)]
    exact ⟨hf, by rw [resumen_spec, resumen_spec, hf]⟩
  · have hf : fetch_casos st cf ef = fetch_casos st cf Option.none := by
      unfold fetch_casos
      rw [List.filter_congr (fun c _ => casoMatches_neutral_right cf ef h c)]
    exact ⟨hf, by rw [resumen_spec, resumen_spec, hf]⟩
  · have hf : fetch_casos st cf ef = fetch_casos st Option.none Option.none := by
      unfold fetch_casos
      rw [List.filter_congr (fun c _ => casoMatches_neutral_left cf ef h1 c),
        List.filter_congr (fun c _ => casoMatches_neutral_right Option.none ef h2 c)]
    rw [hf]
    exact fetch_casos_no_filter_perm st

/-- Witness for C10: a store whose only client is literally named
`"Todos"` is returned whole when filtering by client `"Todos"`. -/
theorem C10_todos_filter_witness :
    List.Perm
      (fetch_casos ⟨[⟨1, "Todos", "d", 10, "e", "o", "2024-01-01", Option.none⟩], [], 2, 1⟩
        (some "Todos") Option.none)
      [⟨1, "Todos", "d", 10, "e", "o", "2024-01-01", Option.none⟩] :=
  (C10_todos_filter ⟨[⟨1, "Todos", "d", 10, "e", "o", "2024-01-01", Option.none⟩], [], 2, 1⟩
      (some "Todos") Option.none).2.2
    (Or.inr (Or.inr rfl)) (Or.inl rfl)

/-- C3 counterexample: a store whose Cases all have distinct
(cliente, descripcion) pairs, on which `edit_caso` produces a duplicate
pair — so the uniqueness invariant is not preserved by every operation. -/
theorem C3_counterexample :
    List.Pairwise (fun c d => ¬(c.cliente = d.cliente ∧ c.descripcion = d.descripcion))
      (⟨[⟨1, "Ana", "X", 0, "", "", "2024-01-01", Option.none⟩,
         ⟨2, "Bob", "Y", 0, "", "", "2024-01-01", Option.none⟩], [], 3, 1⟩ : Store).casos ∧
    ¬ List.Pairwise (fun c d => ¬(c.cliente = d.cliente ∧ c.descripcion = d.descripcion))
      (edit_caso ⟨[⟨1, "Ana", "X", 0, "", "", "2024-01-01", Option.none⟩,
          ⟨2, "Bob", "Y", 0, "", "", "2024-01-01", Option.none⟩], [], 3, 1⟩
        2 "Ana" "X" (some 0) "" "").1.casos := by
  decide

/-- C3 (amended): `add_caso` rejects an insertion whose
(cliente, descripcion) pair already exists, leaving the store unchanged;
`edit_caso` performs no uniqueness re-check, so the no-duplicate-pair
invariant is not preserved by every Store operation (see the
counterexample). -/
theorem C3_add_rejects_duplicate (st : Store) (cliente descripcion : String)
    (valor : Option Rat) (etapa obs today : String) (cp : Option String)
    (h : ∃ c ∈ st.casos, c.cliente = cliente ∧ c.descripcion = descripcion) :
    (∃ e, (add_caso st cliente descripcion valor etapa obs today cp).2 = Except.error e) ∧
    (add_caso st cliente descripcion valor etapa obs today cp).1 = st :=
  (add_caso_cases st cliente descripcion valor etapa obs today cp).2.1 h

/-- Witness for C3 (amended) at a concrete duplicate insertion. -/
theorem C3_add_rejects_duplicate_witness :
    (∃ e, (add_caso ⟨[⟨1, "Ana", "X", 0, "", "", "2024-01-01", Option.none⟩], [], 2, 1⟩
        "Ana" "X" (some 0) "" "" "2024-01-02" Option.none).2 = Except.error e) ∧
    (add_caso ⟨[⟨1, "Ana", "X", 0, "", "", "2024-01-01", Option.none⟩], [], 2, 1⟩
        "Ana" "X" (some 0) "" "" "2024-01-02" Option.none).1
      = ⟨[⟨1, "Ana", "X", 0, "", "", "2024-01-01", Option.none⟩], [], 2, 1⟩ :=
  C3_add_rejects_duplicate ⟨[⟨1, "Ana", "X", 0, "", "", "2024-01-01", Option.none⟩], [], 2, 1⟩
    "Ana" "X" (some 0) "" "" "2024-01-02" Option.none (by decide)

/-- C5: `add_caso` fails when the client is empty or whitespace-only, or
when a Case with the same (cliente, descripcion) pair already exists; on
such a duplicate-pair failure no new Case row is inserted; otherwise it
inserts exactly one Case and returns its new id. -/
theorem C5_add_caso_validation (st : Store) (cliente descripcion : String)
    (valor : Option Rat) (etapa obs today : String) (cp : Option String) :
    (pyStrip cliente = "" →
      ∃ e, (add_caso st cliente descripcion valor etapa obs today cp).2 = Except.error e) ∧
    ((∃ c ∈ st.casos, c.cliente = cliente ∧ c.descripcion = descripcion) →
      (∃ e, (add_caso st cliente descripcion valor etapa obs today cp).2 = Except.error e) ∧
      (add_caso st cliente descripcion valor etapa obs today cp).1.casos = st.casos) ∧
    (pyStrip cliente ≠ "" →
      (∀ c ∈ st.casos, ¬(c.cliente = cliente ∧ c.descripcion = descripcion)) →
      (add_caso st cliente descripcion valor etapa obs today cp).2
          = Except.ok st.nextCasoId ∧
      (add_caso st cliente descripcion valor etapa obs today cp).1.casos
          = st.casos ++ [⟨st.nextCasoId, pyStrip cliente, descripcion, valor.getD 0,
              etapa, obs, today, cp⟩]) := by
  rcases add_caso_cases st cliente descripcion valor etapa obs today cp with ⟨he, hd, hs⟩
  refine ⟨fun h => ?_, fun h => ?_, fun h1 h2 => ?_⟩
  · rw [he h]
    exact ⟨_, rfl⟩
  · rcases hd h with ⟨hee, hst⟩
    exact ⟨hee, by rw [hst]⟩
  · rw [hs h1 h2]
    exact ⟨rfl, rfl⟩

/-- Witness for C5 at a concrete successful insertion into an empty store. -/
theorem C5_add_caso_validation_witness :
    (add_caso ⟨[], [], 1, 1⟩ "Ana" "Contract" (some 1000) "Open" "" "2024-01-01"
        Option.none).2 = Except.ok 1 ∧
    (add_caso ⟨[], [], 1, 1⟩ "Ana" "Contract" (some 1000) "Open" "" "2024-01-01"
        Option.none).1.casos
      = [] ++ [⟨1, pyStrip "Ana", "Contract", (some (1000 : Rat)).getD 0, "Open", "",
          "2024-01-01", Option.none⟩] :=
  (C5_add_caso_validation ⟨[], [], 1, 1⟩ "Ana" "Contract" (some 1000) "Open" "" "2024-01-01"
      Option.none).2.2 (by decide) (by decide)

/-- C7 counterexample: `add_caso` accepts a negative agreed value and
stores it unchanged, so the non-negativity invariant is not established by
the operations. -/
theorem C7_counterexample :
    (add_caso ⟨[], [], 1, 1⟩ "Ana" "d" (some (-5)) "" "" "2024-01-01" Option.none).2
        = Except.ok 1 ∧
    ∃ c ∈ (add_caso ⟨[], [], 1, 1⟩ "Ana" "d" (some (-5)) "" "" "2024-01-01"
        Option.none).1.casos, c.valor_acordado < 0 := by
  refine ⟨rfl, by decide⟩

/-- C7 (amended): a missing agreed value defaults to 0, and `add_caso` /
`edit_caso` preserve non-negativity of every stored `valor_acordado`
provided the supplied value is itself non-negative — neither operation
validates the sign, so the invariant holds only under that proviso. -/
theorem C7_valor_nonneg (st : Store) (cliente descripcion : String) (valor ve : Option Rat)
    (etapa obs today : String) (cp : Option String) (cid : Nat)
    (hst : ∀ c ∈ st.casos, 0 ≤ c.valor_acordado) :
    ((∀ q, valor = some q → 0 ≤ q) →
      ∀ c ∈ (add_caso st cliente descripcion valor etapa obs today cp).1.casos,
        0 ≤ c.valor_acordado) ∧
    ((∀ q, ve = some q → 0 ≤ q) →
      ∀ c ∈ (edit_caso st cid cliente descripcion ve etapa obs).1.casos,
        0 ≤ c.valor_acordado) ∧
    (∀ c ∈ (add_caso st cliente descripcion Option.none etapa obs today cp).1.casos,
      c ∈ st.casos ∨ c.valor_acordado = 0) := by
  have hgetD : ∀ (v : Option Rat), (∀ q, v = some q → 0 ≤ q) → 0 ≤ v.getD 0 := by
    intro v hv
    cases v with
    | none => simp
    | some q => simpa using hv q rfl
  refine ⟨fun hv c hc => ?_, fun hv c hc => ?_, fun c hc => ?_⟩
  · unfold add_caso at hc
    split at hc
    · exact hst c hc
    · split at hc
      · exact hst c hc
      · simp only [List.mem_append, List.mem_singleton] at hc
        rcases hc with h | h
        · exact hst c h
        · subst h
          exact hgetD valor hv
  · unfold edit_caso at hc
    simp only [List.mem_map] at hc
    rcases hc with ⟨c', hc', he⟩
    by_cases hid : (c'.id == cid) = true
    · rw [if_pos hid] at he
      subst he
      exact hgetD ve hv
    · rw [if_neg hid] at he
      subst he
      exact hst c' hc'
  · unfold add_caso at hc
    split at hc
    · exact Or.inl hc
    · split at hc
      · exact Or.inl hc
      · simp only [List.mem_append, List.mem_singleton] at hc
        rcases hc with h | h
        · exact Or.inl h
        · subst h
          exact Or.inr rfl

/-- Witness for C7 (amended): the case inserted by a concrete
non-negative `add_caso` call has a non-negative stored value. -/
theorem C7_valor_nonneg_witness :
    (0 : Rat) ≤ (⟨1, "Ana", "d", 7, "", "", "2024-01-01", Option.none⟩ : Caso).valor_acordado :=
  (C7_valor_nonneg ⟨[], [], 1, 1⟩ "Ana" "d" (some 7) (some 7) "" "" "2024-01-01"
      Option.none 1 (by decide)).1
    (fun q hq => by
      cases hq
      decide)
    ⟨1, "Ana", "d", 7, "", "", "2024-01-01", Option.none⟩ (by decide)

/-- C4: `add_abono` fails with a ValidationError exactly when the case id
does not resolve to an int, or no Case with that id exists, or the amount
is not numeric, or the amount is ≤ 0; and whenever it fails, the Payments
table is unchanged. -/
theorem C4_add_abono_errors (parse : PyVal → Option String) (st : Store)
    (fecha : DateInput) (monto caso_id : PyVal) (obs today : String) (cp : Option String) :
    ((∃ e, (add_abono parse st fecha monto caso_id obs today cp).2 = Except.error e)
        ↔ addAbonoFails st caso_id monto) ∧
    ((∃ e, (add_abono parse st fecha monto caso_id obs today cp).2 = Except.error e) →
      (add_abono parse st fecha monto caso_id obs today cp).1.abonos = st.abonos) := by
  unfold add_abono addAbonoFails
  split
  next h1 =>
    exact ⟨⟨fun _ => Or.inl h1, fun _ => ⟨_, rfl⟩⟩, fun _ => rfl⟩
  next n h1 =>
    split
    next hex =>
      split
      next h2 =>
        exact ⟨⟨fun _ => Or.inr (Or.inr (Or.inl h2)), fun _ => ⟨_, rfl⟩⟩, fun _ => rfl⟩
      next m h2 =>
        split
        next hm =>
          exact ⟨⟨fun _ => Or.inr (Or.inr (Or.inr ⟨m, h2, hm⟩)), fun _ => ⟨_, rfl⟩⟩,
            fun _ => rfl⟩
        next hm =>
          have hnoerr : ¬ ∃ e, (Except.ok st.nextAbonoId : Except String Nat)
              = Except.error e := by
            rintro ⟨e, habs⟩
            exact Except.noConfusion habs
          refine ⟨⟨fun habs => absurd habs hnoerr, fun hcond => ?_⟩,
            fun habs => absurd habs hnoerr⟩
          exfalso
          rcases hcond with hc | ⟨n', hn', hall⟩ | hc | ⟨m', hm', hle⟩
          · rw [h1] at hc
            exact Option.noConfusion hc
          · rw [h1] at hn'
            have he := Option.some.inj hn'
            subst he
            rcases List.any_eq_true.mp hex with ⟨c, hcmem, hb⟩
            exact hall c hcmem (by simpa using hb)
          · rw [h2] at hc
            exact Option.noConfusion hc
          · rw [h2] at hm'
            have he := Option.some.inj hm'
            subst he
            exact hm hle
    next hex =>
      refine ⟨⟨fun _ => Or.inr (Or.inl ⟨n, h1, fun c hc heq => ?_⟩), fun _ => ⟨_, rfl⟩⟩,
        fun _ => rfl⟩
      exact hex (List.any_eq_true.mpr ⟨c, hc, by simp [heq]⟩)

/-- Witness for C4 at a concrete failing call: `int(None)` fails, so the
insertion is rejected and the Payments table stays empty. -/
theorem C4_add_abono_errors_witness :
    (add_abono (fun _ => Option.none) ⟨[], [], 1, 1⟩ (DateInput.isDate "2024-01-01")
        (PyVal.int 5) PyVal.none "" "2024-01-01" Option.none).1.abonos = [] :=
  (C4_add_abono_errors (fun _ => Option.none) ⟨[], [], 1, 1⟩ (DateInput.isDate "2024-01-01")
      (PyVal.int 5) PyVal.none "" "2024-01-01" Option.none).2 ⟨_, rfl⟩

/-- C8: when the other validations pass, a `fecha` argument that is not a
date value and that the external parser cannot parse still results in an
inserted Payment whose stored date is the current date (`today`); a
parseable input is stored as the parsed date. -/
theorem C8_fecha_fallback (parse : PyVal → Option String) (st : Store)
    (v : PyVal) (monto caso_id : PyVal) (obs today : String) (cp : Option String)
    (n : Int) (m : Rat)
    (hcid : pyToInt caso_id = some n)
    (hex : (st.casos.any fun c => ((c.id : Int)) == n) = true)
    (hm : pyToFloat monto = some m) (hpos : 0 < m) :
    (parse v = Option.none →
      add_abono parse st (DateInput.other v) monto caso_id obs today cp
        = (⟨st.casos, st.abonos ++ [⟨st.nextAbonoId, today, m, n.toNat, obs, today, cp⟩],
            st.nextCasoId, st.nextAbonoId + 1⟩, Except.ok st.nextAbonoId)) ∧
    (∀ d, parse v = some d →
      add_abono parse st (DateInput.other v) monto caso_id obs today cp
        = (⟨st.casos, st.abonos ++ [⟨st.nextAbonoId, d, m, n.toNat, obs, today, cp⟩],
            st.nextCasoId, st.nextAbonoId + 1⟩, Except.ok st.nextAbonoId)) := by
  unfold add_abono
  simp only [hcid]
  rw [if_pos hex]
  simp only [hm]
  rw [if_neg (not_le.mpr hpos)]
  constructor
  · intro hparse
    simp only [hparse]
    rfl
  · intro d hparse
    simp only [hparse]
    rfl

/-- Witness for C8: an unparsable string date falls back to `today` at a
concrete call. -/
theorem C8_fecha_fallback_witness :
    add_abono (fun _ => Option.none)
        ⟨[⟨1, "Ana", "d", 10, "", "", "2024-01-01", Option.none⟩], [], 2, 1⟩
        (DateInput.other (PyVal.str "not a date")) (PyVal.int 5) (PyVal.int 1)
        "" "2024-05-05" Option.none
      = (⟨[⟨1, "Ana", "d", 10, "", "", "2024-01-01", Option.none⟩],
          [⟨1, "2024-05-05", 5, 1, "", "2024-05-05", Option.none⟩], 2, 2⟩,
         Except.ok 1) :=
  (C8_fecha_fallback (fun _ => Option.none)
      ⟨[⟨1, "Ana", "d", 10, "", "", "2024-01-01", Option.none⟩], [], 2, 1⟩
      (PyVal.str "not a date") (PyVal.int 5) (PyVal.int 1) "" "2024-05-05" Option.none
      1 5 rfl (by decide) rfl (by decide)).1 rfl

/-- C6 counterexample: the claim quantifies over every id, but
`fetch_abonos` treats a `caso_id` of `0` (falsy in Python) as "no filter",
so after `delete_caso 0` the query `fetch_abonos _ (some 0)` returns every
Payment rather than an empty result. -/
theorem C6_counterexample :
    fetch_abonos
        (delete_caso ⟨[⟨1, "Ana", "d", 10, "", "", "2024-01-01", Option.none⟩],
          [⟨1, "2024-01-02", 5, 1, "", "2024-01-02", Option.none⟩], 2, 2⟩ 0)
        (some 0) ≠ [] := by
  decide

/-- C6 (amended): `delete_caso cid` removes the Case with id `cid` and
every Payment referencing it and raises no error; for every `cid ≠ 0`
(`fetch_abonos` treats the id `0`, like `None`, as "no filter"),
`fetch_abonos` restricted to `cid` returns an empty result afterward; and
when no Case with id `cid` exists, `delete_caso` is a no-op on a store
with referential integrity. -/
theorem C6_delete_caso (st : Store) (cid : Nat)
    (href : ∀ a ∈ st.abonos, a.caso_id ∈ st.casos.map Caso.id) :
    (cid ∉ (delete_caso st cid).casos.map Caso.id) ∧
    (∀ a ∈ (delete_caso st cid).abonos, a.caso_id ≠ cid) ∧
    (cid ≠ 0 → fetch_abonos (delete_caso st cid) (some cid) = []) ∧
    (cid ∉ st.casos.map Caso.id → delete_caso st cid = st) := by
  refine ⟨?_, ?_, ?_, ?_⟩
  · intro habs
    rcases List.mem_map.mp habs with ⟨c, hc, he⟩
    rcases List.mem_filter.mp hc with ⟨_, hb⟩
    simp only [Bool.not_eq_eq_eq_not, Bool.not_true, beq_eq_false_iff_ne] at hb
    exact hb he
  · intro a ha
    rcases List.mem_filter.mp ha with ⟨_, hb⟩
    simp only [Bool.not_eq_eq_eq_not, Bool.not_true, beq_eq_false_iff_ne] at hb
    exact hb
  · intro hne
    unfold fetch_abonos
    simp only [if_pos hne]
    have hnil : (joinAbonosCasos (delete_caso st cid)).filter
        (fun r => r.caso_id == cid) = [] := by
      rw [List.filter_eq_nil_iff]
      intro r hr hb
      rcases List.mem_flatMap.mp hr with ⟨a, ha, hrow⟩
      rcases List.mem_map.mp hrow with ⟨c, _, he⟩
      rcases List.mem_filter.mp ha with ⟨_, hab⟩
      simp only [Bool.not_eq_eq_eq_not, Bool.not_true, beq_eq_false_iff_ne] at hab
      apply hab
      have : r.caso_id = a.caso_id := by
        rw [← he]
      rw [← this]
      simpa using hb
    rw [hnil]
    rfl
  · intro hnc
    have hcfix : st.casos.filter (fun c => !(c.id == cid)) = st.casos := by
      apply List.filter_eq_self.mpr
      intro c hc
      simp only [Bool.not_eq_eq_eq_not, Bool.not_true, beq_eq_false_iff_ne]
      intro he
      exact hnc (he ▸ List.mem_map.mpr ⟨c, hc, rfl⟩)
    have hafix : st.abonos.filter (fun a => !(a.caso_id == cid)) = st.abonos := by
      apply List.filter_eq_self.mpr
      intro a ha
      simp only [Bool.not_eq_eq_eq_not, Bool.not_true, beq_eq_false_iff_ne]
      intro he
      exact hnc (he ▸ href a ha)
    unfold delete_caso
    rw [hcfix, hafix]

/-- Witness for C6 (amended) at a concrete one-case, one-payment store. -/
theorem C6_delete_caso_witness :
    fetch_abonos
        (delete_caso ⟨[⟨1, "Ana", "d", 10, "", "", "2024-01-01", Option.none⟩],
          [⟨1, "2024-01-02", 5, 1, "", "2024-01-02", Option.none⟩], 2, 2⟩ 1)
        (some 1) = [] :=
  (C6_delete_caso ⟨[⟨1, "Ana", "d", 10, "", "", "2024-01-01", Option.none⟩],
      [⟨1, "2024-01-02", 5, 1, "", "2024-01-02", Option.none⟩], 2, 2⟩ 1
    (by decide)).2.2.1 (by decide)

end ControlAbonos
